import Mathlib

/-!
Shallow embedding of the geo-LLM chat front-end: src/client/src/App.tsx
(`simulateTyping`, `handleSendMessage`, `handleClearChat`, the clear-button
render condition), src/client/src/components/QueryInput.tsx (`handleSubmit`),
and the two transport-adapter variants of `sendChatMessage` (the fetch-based
src/services/api.ts and the axios-based variant).

JS strings are modelled as `List Char`; message ids, produced by
`Date.now().toString()` (an injective image of the underlying number), as
`Nat`; timer-driven code as explicit step functions iterated tick by tick; the
async `handleSendMessage` as a synchronous prefix (up to the `await`) plus a
settle function applied when the transport promise resolves or rejects.
-/

/-- Message role, from the `Message` type used by App.tsx
(`'user' | 'assistant'`). -/
inductive Role where
  | user
  | assistant
  deriving DecidableEq

/-- Chat message record from App.tsx: `{ id, role, content, timestamp }`. -/
structure Message where
  id : Nat
  role : Role
  content : List Char
  timestamp : Nat
  deriving DecidableEq

/-- Controller state of `App`: the `messages` list, the `loading` flag, and
whether `abortControllerRef.current` is non-null. -/
structure AppState where
  messages : List Message
  loading : Bool
  hasAbortController : Bool
  deriving DecidableEq

/-- ASCII whitespace recognised by the model of JS `String.prototype.trim`
(the JS method strips all Unicode whitespace; the claims only need the common
ASCII cases). -/
def isJsWhitespace (c : Char) : Bool :=
  c = ' ' || c = '\t' || c = '\n' || c = '\r'

/-- Model of JS `input.trim()`: strip whitespace from both ends. -/
def jsTrim (l : List Char) : List Char :=
  ((l.dropWhile isJsWhitespace).reverse.dropWhile isJsWhitespace).reverse

/-- QueryInput.tsx `handleSubmit`: `if (trimmed && !disabled)` then
`onSubmit(trimmed)`, otherwise nothing happens. `App` wires
`disabled := loading`. -/
def handleSubmitQI (input : List Char) (disabled : Bool) : Option (List Char) :=
  if jsTrim input ≠ [] ∧ disabled = false then some (jsTrim input) else none

/-- Synchronous prefix of App.tsx `handleSendMessage`: the
`if (loading) return` guard, the user-message append, the empty assistant
placeholder append, `setLoading(true)` and the fresh `AbortController`.
`n1`/`n2` model the two `Date.now()` readings (the placeholder id is
`(Date.now() + 1).toString()`), `t1`/`t2` the two `new Date()` timestamps. -/
def handleSendMessageStart (query : List Char) (n1 n2 t1 t2 : Nat) (s : AppState) : AppState :=
  if s.loading then s
  else
    { messages := s.messages ++
        [ { id := n1, role := Role.user, content := query, timestamp := t1 },
          { id := n2 + 1, role := Role.assistant, content := [], timestamp := t2 } ],
      loading := true,
      hasAbortController := true }

/-- Composition of the input control and the controller guard: what one submit
gesture does to the `App` state. -/
def submitPipeline (input : List Char) (n1 n2 t1 t2 : Nat) (s : AppState) : AppState :=
  match handleSubmitQI input s.loading with
  | none => s
  | some q => handleSendMessageStart q n1 n2 t1 t2 s

/-- State of the `setInterval` loop inside `simulateTyping`: the captured
`index` variable and whether the interval is still active (not yet cleared). -/
structure TypingState where
  index : Nat
  active : Bool
  deriving DecidableEq

/-- Callback events of `simulateTyping`: an `onProgress` call carrying the
emitted partial text, or the single `onComplete` call. -/
inductive TypingEvent where
  | progress (part : List Char)
  | complete
  deriving DecidableEq

/-- Timer state right after `simulateTyping` is called (`let index = 0`,
interval armed). -/
def typingInit : TypingState := { index := 0, active := true }

/-- One firing of the interval callback in `simulateTyping`: while
`index < text.length` it emits `text.slice(0, index + 1)` via `onProgress` and
increments `index`; otherwise it clears the interval and calls `onComplete`.
A cleared interval never fires again, so an inactive state steps to itself
with no event. -/
def typingTick (text : List Char) (s : TypingState) : TypingState × Option TypingEvent :=
  if s.active then
    if s.index < text.length then
      ({ index := s.index + 1, active := true },
        some (TypingEvent.progress (text.take (s.index + 1))))
    else
      ({ s with active := false }, some TypingEvent.complete)
  else (s, none)

/-- The cancel closure returned by `simulateTyping`
(`() => clearInterval(interval)`). -/
def cancelTyping (s : TypingState) : TypingState := { s with active := false }

/-- Timer state and accumulated callback events after `k` firings starting
from state `s0`. -/
def typingTraceFrom (text : List Char) (s0 : TypingState) : Nat → TypingState × List TypingEvent
  | 0 => (s0, [])
  | k + 1 =>
    ((typingTick text (typingTraceFrom text s0 k).1).1,
      (typingTraceFrom text s0 k).2 ++ (typingTick text (typingTraceFrom text s0 k).1).2.toList)

/-- Timer state and events after `k` firings of a fresh `simulateTyping`
run. -/
def typingTrace (text : List Char) (k : Nat) : TypingState × List TypingEvent :=
  typingTraceFrom text typingInit k

/-- The single message-update pattern of `handleSendMessage`
(`prev.map((msg) => msg.id === assistantMessageId ? { ...msg, content } : msg)`),
used by `onProgress`, `onComplete` and the error path alike. -/
def updateContent (mid : Nat) (c : List Char) (msgs : List Message) : List Message :=
  msgs.map fun m => if m.id = mid then { m with content := c } else m

/-- A reveal in progress after a transport success: the full answer passed to
`simulateTyping`, the timer state, and the captured `currentContent`
variable. -/
structure RevealHandle where
  fullText : List Char
  typing : TypingState
  current : List Char
  deriving DecidableEq

/-- Reveal state right after `simulateTyping(fullAnswer, ...)` is called with
`currentContent = ''`. -/
def revealStart (text : List Char) : RevealHandle :=
  { fullText := text, typing := typingInit, current := [] }

/-- One simulator tick as seen by the controller: the `onProgress` callback
sets `currentContent := partial` and rewrites the placeholder's content to the
partial text; the `onComplete` callback rewrites it to `currentContent`. -/
def revealTick (mid : Nat) (p : RevealHandle × List Message) : RevealHandle × List Message :=
  match typingTick p.1.fullText p.1.typing with
  | (t, none) => ({ p.1 with typing := t }, p.2)
  | (t, some (TypingEvent.progress part)) =>
      ({ p.1 with typing := t, current := part }, updateContent mid part p.2)
  | (t, some TypingEvent.complete) =>
      ({ p.1 with typing := t }, updateContent mid p.1.current p.2)

/-- Reveal state and conversation after `k` simulator ticks. -/
def revealRun (mid : Nat) : Nat → RevealHandle × List Message → RevealHandle × List Message
  | 0, p => p
  | k + 1, p => revealTick mid (revealRun mid k p)

/-- Calling the cancel closure returned by `simulateTyping`: clears the timer,
touches no message. -/
def cancelReveal (p : RevealHandle × List Message) : RevealHandle × List Message :=
  ({ p.1 with typing := cancelTyping p.1.typing }, p.2)

/-- Fallback text used when a caught error has no message
(`error.message || '❌ Не удалось связаться с бэкендом'`). -/
def defaultTransportError : List Char := "❌ Не удалось связаться с бэкендом".data

/-- The three ways the awaited `sendChatMessage` call can settle at the
controller: resolve with the full answer text, reject with a transport error
carrying `error.message`, or reject with an `AbortError`. -/
inductive TransportResult where
  | success (text : List Char)
  | failure (detail : List Char)
  | aborted
  deriving DecidableEq

/-- Resumption of `handleSendMessage` after the `await`: on success the try
block starts `simulateTyping` (a live reveal handle; no message has been
touched yet); on a non-abort error the catch block rewrites the placeholder to
`error.message || default`; on abort the catch block only logs. In every case
the finally block then runs `setLoading(false)` and clears
`abortControllerRef.current`. The function is total over `TransportResult`:
no rejection escapes the handler. -/
def settleTransport (r : TransportResult) (mid : Nat) (s : AppState) :
    AppState × Option RevealHandle :=
  match r with
  | TransportResult.success text =>
      ({ s with loading := false, hasAbortController := false }, some (revealStart text))
  | TransportResult.failure detail =>
      ({ messages :=
            updateContent mid (if detail = [] then defaultTransportError else detail) s.messages,
         loading := false, hasAbortController := false }, none)
  | TransportResult.aborted =>
      ({ s with loading := false, hasAbortController := false }, none)

/-- App.tsx `handleClearChat`: `setMessages([])`, with no guard of any kind. -/
def handleClearChat (s : AppState) : AppState := { s with messages := [] }

/-- Render condition of the clear button in App.tsx
(`{messages.length > 0 && <button onClick={handleClearChat} ...>}`). -/
def clearButtonVisible (s : AppState) : Bool := decide (0 < s.messages.length)

/-- Minimal JSON value model for the request bodies. -/
inductive Json where
  | str (s : List Char)
  | arr (xs : List Json)
  | obj (fields : List (List Char × Json))

/-- Body built by the fetch-based adapter (src/services/api.ts):
`JSON.stringify({ messages: [{ role: 'user', content: userMessage.trim() }] })`. -/
def fetchChatBody (userMessage : List Char) : Json :=
  Json.obj [("messages".data,
    Json.arr [Json.obj
      [("role".data, Json.str "user".data),
       ("content".data, Json.str (jsTrim userMessage))]])]

/-- Body built by the axios-based adapter variant:
`axios.post(url, { messages: query })` — the raw query string, not an array of
role/content records. -/
def axiosChatBody (query : List Char) : Json :=
  Json.obj [("messages".data, Json.str query)]

/-- Modelled from the spec (§6 External interfaces): the claimed request body
`{ "messages": [ { "role": "user", "content": <trimmed query text> } ] }`. -/
def specChatBody (queryText : List Char) : Json :=
  Json.obj [("messages".data,
    Json.arr [Json.obj
      [("role".data, Json.str "user".data),
       ("content".data, Json.str (jsTrim queryText))]])]

/-- An HTTP request as issued by the adapter. -/
structure HttpRequest where
  method : List Char
  url : List Char
  body : Json

/-- src/services/api.ts `sendChatMessage`: POST to
`http://localhost:8000/chat` with the fetch body. -/
def sendChatMessageRequest (userMessage : List Char) : HttpRequest :=
  { method := "POST".data, url := "http://localhost:8000/chat".data,
    body := fetchChatBody userMessage }

/-- Sample user message used by concrete witnesses. -/
def sampleUserMsg : Message :=
  { id := 1, role := Role.user, content := ['h', 'i'], timestamp := 0 }

/-- Sample empty assistant placeholder used by concrete witnesses. -/
def samplePlaceholder : Message :=
  { id := 2, role := Role.assistant, content := [], timestamp := 0 }

/-- An idle state with an empty conversation. -/
def idleState : AppState :=
  { messages := [], loading := false, hasAbortController := false }

/-- A state mid-request: user message and placeholder appended, `loading`
set, abort handle held. -/
def awaitingState : AppState :=
  { messages := [sampleUserMsg, samplePlaceholder], loading := true,
    hasAbortController := true }

/-- A cleared interval never fires again: from an inactive timer state no
event is ever emitted and the state is unchanged. -/
theorem typingTraceFrom_inactive (text : List Char) (s : TypingState)
    (h : s.active = false) : ∀ j, typingTraceFrom text s j = (s, []) := by
  intro j
  induction j with
  | zero => rfl
  | succ j ih => simp [typingTraceFrom, ih, typingTick, h]

/-- While `k ≤ length`, the first `k` firings emit the prefixes of lengths
`1..k` and leave the interval armed with `index = k`. -/
theorem typingTrace_take (text : List Char) :
    ∀ k, k ≤ text.length →
      typingTrace text k =
        ({ index := k, active := true },
          (List.range k).map fun i => TypingEvent.progress (text.take (i + 1))) := by
  intro k
  induction k with
  | zero => intro _; rfl
  | succ k ih =>
    intro hk
    have hk' : k ≤ text.length := Nat.le_of_succ_le hk
    have hlt : k < text.length := hk
    simp only [typingTrace, typingTraceFrom] at ih ⊢
    rw [ih hk']
    simp [typingTick, hlt, List.range_succ]

/-- After `length + 1` firings the trace is the canonical one: all prefixes in
order, then one `onComplete`, interval cleared. -/
theorem typingTrace_complete (text : List Char) :
    typingTrace text (text.length + 1) =
      ({ index := text.length, active := false },
        ((List.range text.length).map fun i => TypingEvent.progress (text.take (i + 1))) ++
          [TypingEvent.complete]) := by
  have h := typingTrace_take text text.length (Nat.le_refl _)
  simp only [typingTrace, typingTraceFrom] at h ⊢
  rw [h]
  simp [typingTick]

/-- Trace decomposition: `a + b` firings are `a` firings followed by `b`
firings from the reached state. -/
theorem typingTraceFrom_add (text : List Char) (s0 : TypingState) (a : Nat) :
    ∀ b, typingTraceFrom text s0 (a + b) =
      ((typingTraceFrom text (typingTraceFrom text s0 a).1 b).1,
        (typingTraceFrom text s0 a).2 ++
          (typingTraceFrom text (typingTraceFrom text s0 a).1 b).2) := by
  intro b
  induction b with
  | zero => simp [typingTraceFrom]
  | succ b ih =>
    show typingTraceFrom text s0 (a + b + 1) = _
    simp only [typingTraceFrom, ih, List.append_assoc]

/-- The canonical trace contains `onComplete` exactly once. -/
theorem count_complete_canonical (text : List Char) :
    (((List.range text.length).map fun i => TypingEvent.progress (text.take (i + 1))) ++
        [TypingEvent.complete]).count TypingEvent.complete = 1 := by
  rw [List.count_append]
  have h0 : ((List.range text.length).map fun i =>
      TypingEvent.progress (text.take (i + 1))).count TypingEvent.complete = 0 := by
    rw [List.count_eq_zero]
    intro hmem
    rcases List.mem_map.mp hmem with ⟨i, _, hi⟩
    simp at hi
  rw [h0]
  simp

/-- Any member of an updated conversation that carries the targeted id holds
the new content. -/
theorem mem_updateContent (mid : Nat) (c : List Char) (msgs : List Message) (m : Message)
    (hm : m ∈ updateContent mid c msgs) (hid : m.id = mid) : m.content = c := by
  rcases List.mem_map.mp hm with ⟨a, _, ha⟩
  by_cases h : a.id = mid
  · rw [if_pos h] at ha
    rw [← ha]
  · rw [if_neg h] at ha
    rw [← ha] at hid
    exact absurd hid h

/-- Updating the same id twice keeps only the second content. -/
theorem updateContent_updateContent (mid : Nat) (c1 c2 : List Char) (msgs : List Message) :
    updateContent mid c2 (updateContent mid c1 msgs) = updateContent mid c2 msgs := by
  induction msgs with
  | nil => rfl
  | cons m t ih =>
    simp only [updateContent, List.map_cons] at ih ⊢
    by_cases h : m.id = mid
    · simp [h, ih]
    · simp [h, ih]

/-- While `1 ≤ k ≤ length`, after `k` ticks the reveal has emitted the prefix
of length `k`: `currentContent` holds it and the placeholder content has been
rewritten to it. -/
theorem revealRun_take (text : List Char) (mid : Nat) (msgs : List Message) :
    ∀ k, k ≤ text.length → 1 ≤ k →
      revealRun mid k (revealStart text, msgs) =
        ({ fullText := text, typing := { index := k, active := true },
            current := text.take k },
          updateContent mid (text.take k) msgs) := by
  intro k
  induction k with
  | zero => intro _ h1; exact absurd h1 (by decide)
  | succ k ih =>
    intro hk _
    rcases Nat.eq_zero_or_pos k with h0 | hpos
    · subst h0
      have h1 : 0 < text.length := hk
      simp [revealRun, revealTick, revealStart, typingInit, typingTick, h1]
    · have hk' : k ≤ text.length := Nat.le_of_succ_le hk
      have hlt : k < text.length := hk
      simp only [revealRun]
      rw [ih hk' hpos]
      simp [revealTick, typingTick, hlt, updateContent_updateContent]

/-- After `length + 1` ticks the reveal is finished: the timer is cleared and
the placeholder content has been rewritten to the full text. -/
theorem revealRun_complete (text : List Char) (mid : Nat) (msgs : List Message) :
    revealRun mid (text.length + 1) (revealStart text, msgs) =
      ({ fullText := text, typing := { index := text.length, active := false },
          current := text },
        updateContent mid text msgs) := by
  rcases Nat.eq_zero_or_pos text.length with h0 | hpos
  · have htext : text = [] := List.length_eq_zero.mp h0
    subst htext
    simp [revealRun, revealTick, revealStart, typingInit, typingTick]
  · have h := revealRun_take text mid msgs text.length (Nat.le_refl _) hpos
    show revealTick mid (revealRun mid text.length (revealStart text, msgs)) = _
    rw [h]
    simp [revealTick, typingTick, updateContent_updateContent, List.take_length]

/-- A reveal whose timer is cleared is a fixed point of the tick. -/
theorem revealTick_inactive (mid : Nat) (p : RevealHandle × List Message)
    (h : p.1.typing.active = false) : revealTick mid p = p := by
  simp [revealTick, typingTick, h]

/-- Iterating ticks on a fixed point changes nothing. -/
theorem revealRun_fixed (mid : Nat) (p : RevealHandle × List Message)
    (h : revealTick mid p = p) : ∀ j, revealRun mid j p = p := by
  intro j
  induction j with
  | zero => rfl
  | succ j ih => simp only [revealRun, ih, h]

/-- C2: for every `fullText` and any number `m ≥ length + 1` of interval
firings, the simulator's event trace is exactly the successively longer
prefixes (the k-th tick emits the prefix of length k, for k = 1..length)
followed by a single `onComplete`; the timer is then stopped, `onComplete` has
run exactly once, and for empty `fullText` the trace is just the one
`onComplete` with zero `onProgress` calls. -/
theorem c2_typing_simulator_trace (text : List Char) (m : Nat)
    (hm : text.length + 1 ≤ m) :
    (typingTrace text m).2 =
      ((List.range text.length).map fun i => TypingEvent.progress (text.take (i + 1))) ++
        [TypingEvent.complete]
    ∧ (typingTrace text m).1.active = false
    ∧ (typingTrace text m).2.count TypingEvent.complete = 1 := by
  obtain ⟨j, rfl⟩ := Nat.exists_eq_add_of_le hm
  have hstable : typingTraceFrom text { index := text.length, active := false } j =
      ({ index := text.length, active := false }, []) :=
    typingTraceFrom_inactive text _ rfl j
  have hsplit := typingTraceFrom_add text typingInit (text.length + 1) j
  have hc := typingTrace_complete text
  simp only [typingTrace] at hc ⊢
  rw [hsplit, hc, hstable]
  refine ⟨by simp, rfl, ?_⟩
  simpa using count_complete_canonical text

/-- Witness for C2 at `fullText = "ab"` and `m = 3` firings. -/
theorem c2_typing_simulator_trace_witness :
    (['a', 'b'].length + 1 ≤ 3)
    ∧ ((typingTrace ['a', 'b'] 3).2 =
        ((List.range (['a', 'b'] : List Char).length).map fun i =>
          TypingEvent.progress ((['a', 'b'] : List Char).take (i + 1))) ++
          [TypingEvent.complete]
      ∧ (typingTrace ['a', 'b'] 3).1.active = false
      ∧ (typingTrace ['a', 'b'] 3).2.count TypingEvent.complete = 1) :=
  ⟨by decide, c2_typing_simulator_trace ['a', 'b'] 3 (by decide)⟩

/-- C3: after a transport success with answer `text`, the started simulator
run to completion (`length + 1` ticks) leaves every message carrying the
placeholder's id with content exactly `text`, and `onComplete` has fired
exactly once. -/
theorem c3_success_reveal_final_content (text : List Char) (mid : Nat) (s : AppState)
    (h : RevealHandle)
    (hh : (settleTransport (TransportResult.success text) mid s).2 = some h) :
    (∀ m, m ∈ (revealRun mid (text.length + 1)
        (h, (settleTransport (TransportResult.success text) mid s).1.messages)).2 →
      m.id = mid → m.content = text)
    ∧ (typingTrace text (text.length + 1)).2.count TypingEvent.complete = 1 := by
  have hh' : some (revealStart text) = some h := hh
  obtain rfl := (Option.some.inj hh').symm
  constructor
  · intro m hmem hid
    have hmem' : m ∈ (revealRun mid (text.length + 1) (revealStart text, s.messages)).2 := hmem
    rw [revealRun_complete] at hmem'
    exact mem_updateContent mid text s.messages m hmem' hid
  · rw [typingTrace_complete]
    simpa using count_complete_canonical text

/-- Witness for C3: success with answer `"ok"` against the awaiting state;
the updated placeholder indeed holds `"ok"`. -/
theorem c3_success_reveal_final_content_witness :
    ({ id := 2, role := Role.assistant, content := ['o', 'k'], timestamp := 0 : Message}.content
        = ['o', 'k'])
    ∧ (typingTrace ['o', 'k'] (['o', 'k'].length + 1)).2.count TypingEvent.complete = 1 := by
  have h := c3_success_reveal_final_content ['o', 'k'] 2 awaitingState
    (revealStart ['o', 'k']) rfl
  exact ⟨h.1 _ (by decide) rfl, h.2⟩

/-- C7: cancelling the reveal after `k < length` ticks (the code's cancel
closure clears the interval) leaves every message with the placeholder's id
holding the last emitted prefix `text.take k` (the placeholder starts empty),
any number of further timer firings changes nothing, and no event — in
particular no `onComplete` — is ever emitted afterwards. -/
theorem c7_cancel_stops_reveal (text : List Char) (mid : Nat) (msgs : List Message)
    (k j : Nat) (hk : k < text.length)
    (hinit : ∀ m, m ∈ msgs → m.id = mid → m.content = []) :
    (∀ m, m ∈ (cancelReveal (revealRun mid k (revealStart text, msgs))).2 →
      m.id = mid → m.content = text.take k)
    ∧ revealRun mid j (cancelReveal (revealRun mid k (revealStart text, msgs))) =
        cancelReveal (revealRun mid k (revealStart text, msgs))
    ∧ (typingTraceFrom text
        (cancelReveal (revealRun mid k (revealStart text, msgs))).1.typing j).2 = [] := by
  have hact : (cancelReveal (revealRun mid k (revealStart text, msgs))).1.typing.active
      = false := rfl
  refine ⟨?_, revealRun_fixed mid _ (revealTick_inactive mid _ hact) j, ?_⟩
  · intro m hmem hid
    rcases Nat.eq_zero_or_pos k with h0 | hpos
    · subst h0
      simpa using hinit m hmem hid
    · have h := revealRun_take text mid msgs k (Nat.le_of_lt hk) hpos
      have hmem' : m ∈ (revealRun mid k (revealStart text, msgs)).2 := hmem
      rw [h] at hmem'
      exact mem_updateContent mid (text.take k) msgs m hmem' hid
  · rw [typingTraceFrom_inactive text _ hact j]

/-- Witness for C7: `fullText = "abc"`, cancelled after one tick, two further
firings observed. -/
theorem c7_cancel_stops_reveal_witness :
    (1 < (['a', 'b', 'c'] : List Char).length)
    ∧ ((∀ m, m ∈ (cancelReveal (revealRun 2 1 (revealStart ['a', 'b', 'c'],
          [samplePlaceholder]))).2 → m.id = 2 → m.content = (['a', 'b', 'c'] : List Char).take 1)
      ∧ revealRun 2 2 (cancelReveal (revealRun 2 1 (revealStart ['a', 'b', 'c'],
          [samplePlaceholder]))) =
          cancelReveal (revealRun 2 1 (revealStart ['a', 'b', 'c'], [samplePlaceholder]))
      ∧ (typingTraceFrom ['a', 'b', 'c']
          (cancelReveal (revealRun 2 1 (revealStart ['a', 'b', 'c'],
            [samplePlaceholder]))).1.typing 2).2 = []) :=
  ⟨by decide, c7_cancel_stops_reveal ['a', 'b', 'c'] 2 [samplePlaceholder] 1 2
    (by decide) (by decide)⟩

/-- C4: submitting a draft whose trim is non-empty while not loading appends
exactly one user message followed by one empty assistant placeholder;
submitting while loading, or with an empty/whitespace-only draft, leaves the
state (in particular the conversation) unchanged. -/
theorem c4_submit_appends_or_noop (input : List Char) (n1 n2 t1 t2 : Nat) (s : AppState) :
    (jsTrim input ≠ [] → s.loading = false →
      (submitPipeline input n1 n2 t1 t2 s).messages =
        s.messages ++
          [ { id := n1, role := Role.user, content := jsTrim input, timestamp := t1 },
            { id := n2 + 1, role := Role.assistant, content := [], timestamp := t2 } ])
    ∧ (s.loading = true ∨ jsTrim input = [] → submitPipeline input n1 n2 t1 t2 s = s) := by
  constructor
  · intro hne hload
    simp [submitPipeline, handleSubmitQI, hne, hload, handleSendMessageStart]
  · intro h
    rcases h with hload | hempty
    · have : handleSubmitQI input s.loading = none := by
        simp [handleSubmitQI, hload]
      simp [submitPipeline, this]
    · have : handleSubmitQI input s.loading = none := by
        simp [handleSubmitQI, hempty]
      simp [submitPipeline, this]

/-- Witness for C4: drafting `" hi"` while idle appends the two messages;
submitting from the awaiting state is a no-op. -/
theorem c4_submit_appends_or_noop_witness :
    ((submitPipeline [' ', 'h', 'i'] 5 5 7 7 idleState).messages =
      idleState.messages ++
        [ { id := 5, role := Role.user, content := jsTrim [' ', 'h', 'i'], timestamp := 7 },
          { id := 6, role := Role.assistant, content := [], timestamp := 7 } ])
    ∧ submitPipeline [' ', 'h', 'i'] 5 5 7 7 awaitingState = awaitingState :=
  ⟨(c4_submit_appends_or_noop [' ', 'h', 'i'] 5 5 7 7 idleState).1 (by decide) rfl,
    (c4_submit_appends_or_noop [' ', 'h', 'i'] 5 5 7 7 awaitingState).2 (Or.inl rfl)⟩

/-- C5: a transport failure carrying detail `detail` starts no simulator
(there is no reveal handle, hence no tick), resets `loading`, and rewrites
every message with the placeholder's id to `detail` — or to the default
"could not reach backend" text when the detail is empty. The settle function
is total, so the rejection never escapes the controller. -/
theorem c5_failure_sets_error_content (detail : List Char) (mid : Nat) (s : AppState) :
    (settleTransport (TransportResult.failure detail) mid s).2 = none
    ∧ (settleTransport (TransportResult.failure detail) mid s).1.loading = false
    ∧ (settleTransport (TransportResult.failure detail) mid s).1.messages =
        updateContent mid (if detail = [] then defaultTransportError else detail) s.messages
    ∧ (∀ m, m ∈ (settleTransport (TransportResult.failure detail) mid s).1.messages →
        m.id = mid →
        m.content = (if detail = [] then defaultTransportError else detail)) := by
  refine ⟨rfl, rfl, rfl, ?_⟩
  intro m hmem hid
  exact mem_updateContent mid _ s.messages m hmem hid

/-- Witness for C5: failure with detail `"boom"` against the awaiting state
turns the placeholder content into `"boom"`. -/
theorem c5_failure_sets_error_content_witness :
    ({ id := 2, role := Role.assistant, content := ['b', 'o', 'o', 'm'], timestamp := 0 :
        Message}.content =
      (if (['b', 'o', 'o', 'm'] : List Char) = [] then defaultTransportError
        else ['b', 'o', 'o', 'm'])) :=
  (c5_failure_sets_error_content ['b', 'o', 'o', 'm'] 2 awaitingState).2.2.2 _
    (by decide) rfl

/-- C8: when the awaited call rejects with an `AbortError`, the catch branch
only logs: the conversation is exactly what it was at abort time, no reveal is
started, and the finally block still resets `loading` and releases the abort
handle. -/
theorem c8_abort_preserves_messages (mid : Nat) (s : AppState) :
    (settleTransport TransportResult.aborted mid s).1.messages = s.messages
    ∧ (settleTransport TransportResult.aborted mid s).1.loading = false
    ∧ (settleTransport TransportResult.aborted mid s).1.hasAbortController = false
    ∧ (settleTransport TransportResult.aborted mid s).2 = none :=
  ⟨rfl, rfl, rfl, rfl⟩

/-- C10: the single update pattern shared by the simulator's `onProgress` and
`onComplete` callbacks and by the transport-failure path rewrites only the
`content` field of the messages whose id equals the targeted placeholder id:
the conversation's length and order are preserved, every message keeps its id,
role and timestamp, messages with a different id are entirely unchanged, and a
matching message changes in its `content` field alone. -/
theorem c10_update_frame (mid : Nat) (c : List Char) (msgs : List Message) :
    (updateContent mid c msgs).length = msgs.length
    ∧ (updateContent mid c msgs).map (fun m => (m.id, m.role, m.timestamp)) =
        msgs.map (fun m => (m.id, m.role, m.timestamp))
    ∧ ∀ i (h1 : i < msgs.length) (h2 : i < (updateContent mid c msgs).length),
        ((msgs.get ⟨i, h1⟩).id ≠ mid →
          (updateContent mid c msgs).get ⟨i, h2⟩ = msgs.get ⟨i, h1⟩)
        ∧ ((msgs.get ⟨i, h1⟩).id = mid →
          (updateContent mid c msgs).get ⟨i, h2⟩ = { msgs.get ⟨i, h1⟩ with content := c }) := by
  refine ⟨by simp [updateContent], ?_, ?_⟩
  · induction msgs with
    | nil => rfl
    | cons m t ih =>
      simp only [updateContent, List.map_cons] at ih ⊢
      by_cases h : m.id = mid
      · simp [h, ih]
      · simp [h, ih]
  · intro i h1 h2
    simp only [updateContent, List.get_eq_getElem, List.getElem_map]
    constructor
    · intro hne
      rw [if_neg hne]
    · intro heq
      rw [if_pos heq]

/-- Witness for C10: updating the placeholder id leaves the user message (a
different id) untouched and rewrites only the placeholder's content. -/
theorem c10_update_frame_witness :
    ((updateContent 2 ['x'] [sampleUserMsg, samplePlaceholder]).get ⟨0, by decide⟩ =
      ([sampleUserMsg, samplePlaceholder] : List Message).get ⟨0, by decide⟩)
    ∧ ((updateContent 2 ['x'] [sampleUserMsg, samplePlaceholder]).get ⟨1, by decide⟩ =
      { ([sampleUserMsg, samplePlaceholder] : List Message).get ⟨1, by decide⟩ with
          content := ['x'] }) :=
  ⟨((c10_update_frame 2 ['x'] [sampleUserMsg, samplePlaceholder]).2.2 0
      (by decide) (by decide)).1 (by decide),
    ((c10_update_frame 2 ['x'] [sampleUserMsg, samplePlaceholder]).2.2 1
      (by decide) (by decide)).2 (by decide)⟩

/-- C1 counterexample: immediately after a successful transport settle the
finally block has already reset `loading` to `false`, although the reveal
handle it just created is still active with zero ticks taken — the controller
leaves the loading state merely on transport success, before the typing reveal
has finished. -/
theorem c1_counterexample :
    (settleTransport (TransportResult.success ['o', 'k']) 2 awaitingState).1.loading = false
    ∧ ((settleTransport (TransportResult.success ['o', 'k']) 2 awaitingState).2.getD
        (revealStart [])).typing.active = true
    ∧ ((settleTransport (TransportResult.success ['o', 'k']) 2 awaitingState).2.getD
        (revealStart [])).typing.index = 0 :=
  ⟨rfl, rfl, rfl⟩

/-- C1 amended: the loading flag is set at submit (when not already loading)
and is reset as soon as the transport call settles — on success when the
simulator is started (before the reveal finishes), and likewise on failure or
abort; the Awaiting-to-Idle transition coincides with transport settle of any
kind, not with simulator completion. -/
theorem c1_loading_lifecycle (query : List Char) (n1 n2 t1 t2 mid : Nat)
    (s s2 : AppState) (r : TransportResult) (hs : s.loading = false) :
    (handleSendMessageStart query n1 n2 t1 t2 s).loading = true
    ∧ (settleTransport r mid s2).1.loading = false := by
  constructor
  · simp [handleSendMessageStart, hs]
  · cases r <;> rfl

/-- Witness for the amended C1 at concrete states. -/
theorem c1_loading_lifecycle_witness :
    (handleSendMessageStart ['h', 'i'] 1 1 0 0 idleState).loading = true
    ∧ (settleTransport (TransportResult.success ['o', 'k']) 2 awaitingState).1.loading
        = false :=
  c1_loading_lifecycle ['h', 'i'] 1 1 0 0 2 idleState awaitingState
    (TransportResult.success ['o', 'k']) rfl

/-- C6 counterexample: the axios-based adapter variant does not send the
claimed one-element `messages` array — for the query `"hi"` its body is
`{ messages: "hi" }`, not `{ messages: [{ role: 'user', content: "hi" }] }`. -/
theorem c6_counterexample : axiosChatBody ['h', 'i'] ≠ specChatBody ['h', 'i'] := by
  intro h
  simp [axiosChatBody, specChatBody] at h

/-- C6 amended: the fetch-based adapter (src/services/api.ts, the one App.tsx
imports) sends a POST to `http://localhost:8000/chat` whose JSON body is
`{ messages: [{ role: 'user', content: <trimmed query text> }] }`, exactly the
body claimed by the spec; the axios-based variant instead sends
`{ messages: <raw query text> }`. -/
theorem c6_request_body (userMessage : List Char) :
    sendChatMessageRequest userMessage =
      { method := "POST".data, url := "http://localhost:8000/chat".data,
        body := specChatBody userMessage }
    ∧ axiosChatBody userMessage = Json.obj [("messages".data, Json.str userMessage)] :=
  ⟨rfl, rfl⟩

/-- C9 counterexample: in the awaiting state (a request outstanding,
`loading = true`, conversation non-empty) the clear button is rendered and
`handleClearChat` goes through, emptying the conversation mid-Awaiting — the
code has no guard preventing clearing while a request is in flight. -/
theorem c9_counterexample :
    clearButtonVisible awaitingState = true
    ∧ awaitingState.loading = true
    ∧ (handleClearChat awaitingState).messages = []
    ∧ (handleClearChat awaitingState).loading = true := by
  refine ⟨by decide, rfl, rfl, rfl⟩

/-- C9 amended: the clear action resets any conversation to 0 messages and is
a no-op on an empty one; the button is rendered exactly when the conversation
is non-empty, with no loading guard — nothing stops it from being performed
while a request is Awaiting. -/
theorem c9_clear_behavior (s : AppState) :
    (handleClearChat s).messages = []
    ∧ (clearButtonVisible s = true ↔ s.messages ≠ [])
    ∧ (s.messages = [] → handleClearChat s = s) := by
  refine ⟨rfl, ?_, ?_⟩
  · simp [clearButtonVisible, List.length_pos]
  · intro h
    cases s with
    | mk msgs l a =>
      simp only [handleClearChat]
      simp only at h
      rw [h]

/-- Witness for the amended C9: clearing the empty idle conversation is a
no-op. -/
theorem c9_clear_behavior_witness : handleClearChat idleState = idleState :=
  (c9_clear_behavior idleState).2.2 rfl
